import Mathlib

/-!
# A verification model of the Bedrock `SQLiteNode` consensus core

This file gives a shallow embedding of the distributed-consensus core of the
`SQLiteNode` class (state machine ticks, message handlers, the synchronization
protocol and the distributed-transaction resolution logic) and proves the
stated properties of that code against the embedding.

The embedded SQL engine is external to the verified code; it is modelled by a
small deterministic database (`Db`) whose commit log is a list of
`(hash, query)` rows and whose hash function is an arbitrary parameter.
-/

namespace Bedrock

/-- The nine node states of the `SQLiteNode` state machine. -/
inductive NodeState
  | SEARCHING
  | SYNCHRONIZING
  | WAITING
  | STANDINGUP
  | LEADING
  | STANDINGDOWN
  | SUBSCRIBING
  | FOLLOWING
  | UNKNOWN
deriving DecidableEq, Repr

/-- The three write-consistency levels (`SQLiteNode::ConsistencyLevel`). -/
inductive ConsistencyLevel
  | ASYNC
  | ONE
  | QUORUM
deriving DecidableEq, Repr

/-- The commit-state of a leader's in-flight transaction
(`SQLiteNode::CommitState`). -/
inductive CommitState
  | UNINITIALIZED
  | WAITING
  | COMMITTING
  | SUCCESS
  | FAILED
deriving DecidableEq, Repr

/-- Model of the external SQL engine's state.  `commits` is the committed log
(one `(hash, query)` row per commit index, index `i` stored at position
`i - 1`); the `uncommitted*` fields model a prepared-but-uncommitted
transaction (`getUncommittedHash().empty()` in the source corresponds to
`uncommittedHash = ""`). -/
structure Db where
  commits : List (String × String)
  uncommittedHash : String
  uncommittedQuery : String
deriving DecidableEq, Repr

/-- `SQLite::getCommitCount()`: number of committed transactions. -/
def Db.commitCount (db : Db) : Nat := db.commits.length

/-- `SQLite::getCommittedHash()`: hash of the last committed transaction
(empty when the log is empty). -/
def Db.committedHash (db : Db) : String :=
  (db.commits.getLast?.map Prod.fst).getD ""

/-- The engine's begin/write/prepare sequence on query `q`: the prepared
transaction's hash is computed by the (abstract) hash function `h` from the
previous committed hash and the query text. -/
def Db.prepareTxn (h : String → String → String) (db : Db) (q : String) : Db :=
  { db with uncommittedHash := h db.committedHash q, uncommittedQuery := q }

/-- `SQLite::commit()` (success case): append the prepared transaction to the
log and clear the uncommitted state. -/
def Db.commitTxn (db : Db) : Db :=
  { commits := db.commits ++ [(db.uncommittedHash, db.uncommittedQuery)]
    uncommittedHash := ""
    uncommittedQuery := "" }

/-- `SQLite::rollback()`: discard the prepared transaction. -/
def Db.rollback (db : Db) : Db :=
  { db with uncommittedHash := "", uncommittedQuery := "" }

/-- `SQLite::getCommit(i, query, hash)`: the row at commit index `i`
(1-based); `none` models the failure return. -/
def Db.getCommit (db : Db) (i : Nat) : Option (String × String) :=
  if i = 0 then none else db.commits[i - 1]?

/-- `SQLite::getCommits(fromIndex, toIndex, result)`: the rows at commit
indices `fromIndex..toIndex` (inclusive, 1-based); rows outside the log are
simply absent, which the caller detects by the size check. -/
def Db.getCommits (db : Db) (fromIndex toIndex : Nat) : List (String × String) :=
  (db.commits.drop (fromIndex - 1)).take (toIndex + 1 - fromIndex)

/-- A per-peer entry of the node (`STCPNode::Peer` plus the `SQLiteNode`
attributes stored in its name/value map). `permafollower` is the static
`params["Permafollower"] == "true"` configuration; `transactionResponse` is
the `"TransactionResponse"` attribute (`""` when unset), `commitCountAttr`
and `hashAttr` are the `"CommitCount"`/`"Hash"` attributes parsed as the code
parses them (`calcU64` / raw string). -/
structure Peer where
  permafollower : Bool
  loggedIn : Bool
  subscribed : Bool
  transactionResponse : String
  commitCountAttr : Nat
  hashAttr : String
  priorityAttr : Int
  versionAttr : String
  latency : Nat
  state : NodeState
deriving DecidableEq, Repr

/-! ## Synchronization receiver (`SQLiteNode::_recvSynchronize`) and the
follower commit handler (`SQLiteNode::handleCommitTransaction`) -/

/-- An embedded sub-message of a `SYNCHRONIZE_RESPONSE` payload, as
deserialized by `_recvSynchronize`: a method line, optional `CommitIndex` and
`Hash` headers, and the query as content.  `CommitIndex` is parsed with
`calc64`/`calcU64`, so it is carried as an integer. -/
structure SyncCommitMsg where
  methodLine : String
  commitIndex : Option Int
  hash : Option String
  content : String
deriving DecidableEq, Repr

/-- One iteration of the `_recvSynchronize` loop body on a single embedded
`COMMIT`: validate the sub-message, require its `CommitIndex` to be exactly
`getCommitCount() + 1`, begin/write/prepare, commit, then compare the
resulting committed hash with the declared one ("potential hash mismatch" is
raised *after* the commit has been applied, as in the source).  Returns the
database after the iteration together with the raised error, if any. -/
def applySyncCommit (h : String → String → String) (db : Db) (m : SyncCommitMsg) :
    Db × Option String :=
  if m.methodLine ≠ "COMMIT" then (db, some "expecting COMMIT")
  else match m.commitIndex with
  | none => (db, some "missing CommitIndex")
  | some idx =>
    if idx < 0 then (db, some "invalid CommitIndex")
    else match m.hash with
    | none => (db, some "missing Hash")
    | some declaredHash =>
      if idx.toNat ≠ db.commitCount + 1 then (db, some "commit index mismatch")
      else
        let db' := (db.prepareTxn h m.content).commitTxn
        (db', if db'.committedHash ≠ declaredHash then some "potential hash mismatch" else none)

/-- The `_recvSynchronize` deserialization loop over the embedded `COMMIT`
sub-messages, stopping at (and reporting) the first raised error.  The
returned database keeps every commit applied before the error, mirroring the
fact that a C++ exception does not undo already-committed transactions. -/
def recvSynchronizeLoop (h : String → String → String) (db : Db) :
    List SyncCommitMsg → Db × Nat × Option String
  | [] => (db, 0, none)
  | m :: ms =>
    match applySyncCommit h db m with
    | (db', some e) => (db', 0, some e)
    | (db', none) =>
      let r := recvSynchronizeLoop h db' ms
      (r.1, r.2.1 + 1, r.2.2)

/-- `SQLiteNode::_recvSynchronize`: check `NumCommits`, apply every embedded
`COMMIT` in order, and raise "commits remaining at end" when the count does
not match the number of applied commits. -/
def recvSynchronize (h : String → String → String) (db : Db)
    (numCommits : Option Int) (msgs : List SyncCommitMsg) : Db × Option String :=
  match numCommits with
  | none => (db, some "missing NumCommits")
  | some n =>
    let r := recvSynchronizeLoop h db msgs
    (r.1,
      match r.2.2 with
      | some e => some e
      | none => if n - r.2.1 ≠ 0 then some "commits remaining at end" else none)

/-- `SQLiteNode::handleCommitTransaction`: commit the outstanding replicated
transaction, after checking the node is FOLLOWING, a transaction is
outstanding, the commit count is exactly one past the local one, and the
declared hash matches the uncommitted hash. -/
def handleCommitTransaction (state : NodeState) (db : Db)
    (commandCommitCount : Nat) (commandCommitHash : String) : Except String Db :=
  if state ≠ NodeState.FOLLOWING then .error "not following"
  else if db.uncommittedHash = "" then .error "no outstanding transaction"
  else if commandCommitCount ≠ db.commitCount + 1 then .error "commit count mismatch"
  else if commandCommitHash ≠ db.uncommittedHash then .error "hash mismatch"
  else .ok db.commitTxn

/-! ## Leader commit resolution (`SQLiteNode::update`, LEADING/STANDINGDOWN,
`_commitState == COMMITTING`) -/

/-- The five counters accumulated by the peer loop at the top of the
COMMITTING block of `update()`. -/
structure TallyCounts where
  fullPeers : Nat
  fullFollowers : Nat
  fullResponded : Nat
  fullApproved : Nat
  fullDenied : Nat
deriving DecidableEq, Repr

/-- One iteration of the COMMITTING peer loop: skip permafollowers, count
full peers, then (for subscribed ones) count responses, approvals and
denials.  A non-empty response that is not "approve" counts as a denial. -/
def tallyPeer (c : TallyCounts) (p : Peer) : TallyCounts :=
  if p.permafollower then c
  else
    let c := { c with fullPeers := c.fullPeers + 1 }
    if ¬ p.subscribed then c
    else
      let c := { c with fullFollowers := c.fullFollowers + 1 }
      if p.transactionResponse = "" then c
      else
        { c with
          fullResponded := c.fullResponded + 1
          fullApproved := c.fullApproved + (if p.transactionResponse = "approve" then 1 else 0)
          fullDenied := c.fullDenied + (if p.transactionResponse = "approve" then 0 else 1) }

/-- The full peer loop of the COMMITTING block. -/
def tally (peers : List Peer) : TallyCounts :=
  peers.foldl tallyPeer ⟨0, 0, 0, 0, 0⟩

/-- `consistentEnough` exactly as the `switch (_commitConsistency)` computes
it: ASYNC is always true; ONE is `!numFullPeers || (numFullApproved > 0)`;
QUORUM is `majorityApproved`, i.e. `numFullApproved * 2 >= numFullPeers`. -/
def consistentEnough (consistency : ConsistencyLevel) (t : TallyCounts) : Bool :=
  match consistency with
  | .ASYNC => true
  | .ONE => t.fullPeers == 0 || decide (0 < t.fullApproved)
  | .QUORUM => decide (t.fullPeers ≤ t.fullApproved * 2)

/-- A message broadcast by the leader while resolving a commit
(`_sendToAllPeers(msg, true)`): its method line, its `ID` header, its
`NewHash` header when present, and the subscribed-only flag. -/
structure BroadcastMsg where
  method : String
  id : Nat
  newHash : Option String
  subscribedOnly : Bool
deriving DecidableEq, Repr

/-- The result of one pass through the COMMITTING block: the new
commit-state, the database after the pass, the broadcasts emitted, and
`_lastSentTransactionID` after the pass. -/
structure LeadingCommitOutcome where
  commitState : CommitState
  db : Db
  sends : List BroadcastMsg
  lastSentTransactionID : Nat
deriving DecidableEq, Repr

/-- The COMMITTING block of `update()` in LEADING/STANDINGDOWN: tally the
subscribed full peers' votes, roll back (broadcasting ROLLBACK_TRANSACTION to
subscribed peers) when someone denied or everyone responded without enough
consistency, otherwise commit when consistent enough — rolling back on an
engine conflict (`SQLITE_BUSY_SNAPSHOT`, the `conflict` parameter) and
broadcasting COMMIT_TRANSACTION and updating `_lastSentTransactionID` on
success — and otherwise keep waiting for more responses. -/
def leadingCommitting (peers : List Peer) (consistency : ConsistencyLevel)
    (conflict : Bool) (lastSentTransactionID : Nat) (db : Db) : LeadingCommitOutcome :=
  let t := tally peers
  let consistent := consistentEnough consistency t
  let everybodyResponded := decide (t.fullFollowers ≤ t.fullResponded)
  if 0 < t.fullDenied ∨ (everybodyResponded ∧ ¬ consistent) then
    { commitState := .FAILED
      db := db.rollback
      sends := [⟨"ROLLBACK_TRANSACTION", lastSentTransactionID + 1, some db.uncommittedHash, true⟩]
      lastSentTransactionID := lastSentTransactionID }
  else if consistent then
    if conflict then
      { commitState := .FAILED
        db := db.rollback
        sends := [⟨"ROLLBACK_TRANSACTION", lastSentTransactionID + 1, some db.uncommittedHash, true⟩]
        lastSentTransactionID := lastSentTransactionID }
    else
      { commitState := .SUCCESS
        db := db.commitTxn
        sends := [⟨"COMMIT_TRANSACTION", lastSentTransactionID + 1, none, true⟩]
        lastSentTransactionID := db.commitTxn.commitCount }
  else
    { commitState := .COMMITTING
      db := db
      sends := []
      lastSentTransactionID := lastSentTransactionID }

/-! ## Synchronization responder (`SQLiteNode::_queueSynchronizeStateless`) -/

/-- The headers of an incoming SYNCHRONIZE request that the responder reads:
the requester's `CommitCount` (parsed with `SToUInt64`, absent is treated as
`0`) and its `Hash`. -/
structure SyncParams where
  commitCount : Option Nat
  hash : Option String
deriving DecidableEq, Repr

/-- One embedded `COMMIT` sub-message of a SYNCHRONIZE_RESPONSE, carrying
`CommitIndex`, `Hash` and the query as content. -/
structure SyncRespCommit where
  commitIndex : Nat
  hash : String
  content : String
deriving DecidableEq, Repr

/-- The SYNCHRONIZE_RESPONSE built by the responder: its `NumCommits` header
and the embedded `COMMIT` sub-messages. -/
structure SyncResponse where
  numCommits : Nat
  commits : List SyncRespCommit
deriving DecidableEq, Repr

/-- The sending half of `_queueSynchronizeStateless` (everything after the
initial checks): nothing to send when the requester is at the target;
otherwise send the commits from `peerCommitCount + 1` up to `targetCommit`,
capped at `fromIndex + 100` unless `sendAll` is set ("100 transactions at a
time" per the source comment), erroring when the engine returns a different
number of rows than the range demands, and otherwise wrapping each row as a
`COMMIT` sub-message carrying `CommitIndex`, `Hash` and the query. -/
def queueSynchronizeSend (peerCommitCount targetCommit : Nat) (db : Db)
    (sendAll : Bool) : Except String SyncResponse :=
  if peerCommitCount = targetCommit then .ok ⟨0, []⟩
  else
    let fromIndex := peerCommitCount + 1
    let toIndex := if sendAll then targetCommit else min targetCommit (fromIndex + 100)
    let result := db.getCommits fromIndex toIndex
    if (result.length : Int) ≠ (toIndex : Int) - (fromIndex : Int) + 1 then
      .error "mismatched commit count"
    else
      .ok ⟨result.length,
           (List.range result.length).map fun c =>
             ⟨peerCommitCount + c + 1,
              (result[c]?.map Prod.fst).getD "",
              (result[c]?.map Prod.snd).getD ""⟩⟩

/-- `SQLiteNode::_queueSynchronizeStateless`: refuse requesters that are
ahead of us ("you have more data than me"); when the requester has any
commits, compare our hash at its commit count with its declared `Hash`
("hash mismatch" on disagreement, "error getting hash" when the row cannot
be read); then hand over to the sending half. -/
def queueSynchronizeStateless (params : SyncParams) (targetCommit : Nat)
    (db : Db) (sendAll : Bool) : Except String SyncResponse :=
  if params.commitCount.getD 0 > db.commitCount then .error "you have more data than me"
  else if params.commitCount.getD 0 ≠ 0 then
    match db.getCommit (params.commitCount.getD 0) with
    | none => .error "error getting hash"
    | some row =>
      if row.1 ≠ params.hash.getD "" then .error "hash mismatch"
      else queueSynchronizeSend (params.commitCount.getD 0) targetCommit db sendAll
  else queueSynchronizeSend (params.commitCount.getD 0) targetCommit db sendAll

/-! ## Sync-peer selection (`SQLiteNode::_updateSyncPeer`) -/

/-- The loop body of `_updateSyncPeer`: skip peers that are not logged in or
have no more commits than we do; take the first usable peer by default; on
equal latency prefer the higher commit count; replace a zero-latency best by
anything; otherwise replace the best only by a strictly faster peer with
non-zero latency. -/
def updateSyncPeerStep (commitCount : Nat) (best : Option Peer) (p : Peer) : Option Peer :=
  if ¬ p.loggedIn ∨ p.commitCountAttr ≤ commitCount then best
  else match best with
  | none => some p
  | some b =>
    if b.latency = p.latency then
      if p.commitCountAttr > b.commitCountAttr then some p else some b
    else if b.latency = 0 then some p
    else if p.latency ≠ 0 ∧ p.latency < b.latency then some p
    else some b

/-- `SQLiteNode::_updateSyncPeer`: fold the selection loop over the peer
list. -/
def updateSyncPeer (peers : List Peer) (commitCount : Nat) : Option Peer :=
  peers.foldl (updateSyncPeerStep commitCount) none

/-- A peer is usable for synchronization when it is logged in and has
strictly more commits than we do. -/
def syncEligible (commitCount : Nat) (p : Peer) : Prop :=
  p.loggedIn ∧ commitCount < p.commitCountAttr

/-- `q` is a strictly better synchronization choice than `p` in the sense of
the specification: at equal latency a higher commit count wins, and
otherwise a non-zero latency beats latency zero and beats any strictly
larger latency. -/
def betterSyncPeer (q p : Peer) : Prop :=
  (q.latency = p.latency ∧ p.commitCountAttr < q.commitCountAttr) ∨
    (q.latency ≠ 0 ∧ (p.latency = 0 ∨ q.latency < p.latency))

/-! ## The SEARCHING tick (`SQLiteNode::update`, case SEARCHING) -/

/-- `numFullPeers` as the SEARCHING loop counts it: configured peers that are
not permafollowers. -/
def numFullPeers (peers : List Peer) : Nat :=
  peers.countP fun p => ¬ p.permafollower

/-- `numLoggedInFullPeers` as the SEARCHING loop counts it. -/
def numLoggedInFullPeers (peers : List Peer) : Nat :=
  peers.countP fun p => ¬ p.permafollower ∧ p.loggedIn

/-- `freshestPeer` as the SEARCHING loop computes it: among *all* logged-in
peers (permafollowers included), the first one attaining the maximal
`CommitCount` (a later peer replaces the current one only when strictly
fresher). -/
def freshestLoggedInPeer (peers : List Peer) : Option Peer :=
  peers.foldl
    (fun best p =>
      if ¬ p.loggedIn then best
      else match best with
      | none => some p
      | some b => if p.commitCountAttr > b.commitCountAttr then some p else some b)
    none

/-- The observable result of one `update()` tick: the next node state and the
messages sent, each tagged with its destination peer. -/
structure TickOutcome where
  next : NodeState
  sends : List (String × Peer)
  db : Db
deriving DecidableEq, Repr

/-- The SEARCHING case of `update()`: do nothing when shutdown is complete;
jump straight to LEADING when no peers are configured; keep searching until
at least half of the full peers are logged in or the state timeout passed;
then go WAITING when nobody is logged in or nobody has more commits than we
do, and otherwise pick a sync peer, send it SYNCHRONIZE and go
SYNCHRONIZING (WAITING when no sync peer could be selected). -/
def searchingTick (shutdownComplete timeoutReached : Bool) (db : Db)
    (peers : List Peer) : TickOutcome :=
  if shutdownComplete then ⟨.SEARCHING, [], db⟩
  else if peers = [] then ⟨.LEADING, [], db⟩
  else if 2 * numLoggedInFullPeers peers < numFullPeers peers ∧ ¬ timeoutReached then
    ⟨.SEARCHING, [], db⟩
  else match freshestLoggedInPeer peers with
  | none => ⟨.WAITING, [], db⟩
  | some freshest =>
    if freshest.commitCountAttr = db.commitCount then ⟨.WAITING, [], db⟩
    else if freshest.commitCountAttr < db.commitCount then ⟨.WAITING, [], db⟩
    else match updateSyncPeer peers db.commitCount with
    | some sp => ⟨.SYNCHRONIZING, [("SYNCHRONIZE", sp)], db⟩
    | none => ⟨.WAITING, [], db⟩

/-! ## The WAITING tick (`SQLiteNode::update`, case WAITING) -/

/-- `freshestPeer` as the WAITING loop computes it: among logged-in *full*
peers, the first one attaining the maximal `CommitCount`. -/
def freshestFullPeer (peers : List Peer) : Option Peer :=
  peers.foldl
    (fun best p =>
      if p.permafollower ∨ ¬ p.loggedIn then best
      else match best with
      | none => some p
      | some b => if p.commitCountAttr > b.commitCountAttr then some p else some b)
    none

/-- `highestPriorityPeer` as the WAITING loop computes it: among logged-in
full peers, the first one attaining the maximal `Priority`. -/
def highestPriorityPeer (peers : List Peer) : Option Peer :=
  peers.foldl
    (fun best p =>
      if p.permafollower ∨ ¬ p.loggedIn then best
      else match best with
      | none => some p
      | some b => if p.priorityAttr > b.priorityAttr then some p else some b)
    none

/-- `currentLeader` as the WAITING loop computes it: the *last* logged-in
full peer (in configured order) whose observed state is STANDINGUP, LEADING
or STANDINGDOWN — each later candidate overwrites the previous one. -/
def currentLeader (peers : List Peer) : Option Peer :=
  peers.foldl
    (fun cur p =>
      if p.permafollower ∨ ¬ p.loggedIn then cur
      else if p.state = .STANDINGUP ∨ p.state = .LEADING ∨ p.state = .STANDINGDOWN then some p
      else cur)
    none

/-- The observable result of one WAITING tick: the next state, the messages
sent, and the recorded lead peer (`_leadPeer`). -/
structure WaitOutcome where
  next : NodeState
  sends : List (String × Peer)
  leadPeer : Option Peer
deriving DecidableEq, Repr

/-- The WAITING case of `update()`: halt under graceful shutdown; go back to
SEARCHING when no full peer is logged in; subscribe (recording the lead
peer) when the computed candidate leader is LEADING and the highest
logged-in full priority exceeds ours; re-SEARCH when someone is fresher;
stand up when there is no candidate leader, we have quorum, and our strictly
positive priority beats every other; otherwise keep waiting. -/
def waitingTick (gracefulShutdown : Bool) (myPriority : Int)
    (localCommitCount : Nat) (peers : List Peer) : WaitOutcome :=
  if gracefulShutdown then ⟨.WAITING, [], none⟩
  else match highestPriorityPeer peers with
  | none => ⟨.SEARCHING, [], none⟩
  | some highest =>
    let leader := currentLeader peers
    match leader with
    | some l =>
      if myPriority < highest.priorityAttr ∧ l.state = .LEADING then
        ⟨.SUBSCRIBING, [("SUBSCRIBE", l)], some l⟩
      else if (freshestFullPeer peers).any
          (fun f => decide (localCommitCount < f.commitCountAttr)) then
        ⟨.SEARCHING, [], none⟩
      else ⟨.WAITING, [], none⟩
    | none =>
      if (freshestFullPeer peers).any
          (fun f => decide (localCommitCount < f.commitCountAttr)) then
        ⟨.SEARCHING, [], none⟩
      else if 2 * numLoggedInFullPeers peers ≥ numFullPeers peers ∧
          0 < myPriority ∧ highest.priorityAttr < myPriority then
        ⟨.STANDINGUP, [], none⟩
      else ⟨.WAITING, [], none⟩

/-! ## Vote handling (`SQLiteNode::_onMESSAGE`,
APPROVE_TRANSACTION / DENY_TRANSACTION) -/

/-- The headers of an APPROVE_TRANSACTION or DENY_TRANSACTION message that
the handler reads. `ID` is compared as a raw string against
`to_string(_lastSentTransactionID + 1)`; `NewCount` is parsed with
`calcU64`. -/
structure VoteMsg where
  isApprove : Bool
  id : Option String
  newCount : Option Nat
  newHash : Option String
deriving DecidableEq, Repr

/-- How the vote handler disposed of the message. `protocolError` is an
exception that escapes `_onMESSAGE` (resetting the peer session);
`errorCaught` is an `STHROW` raised inside the handler's own try block and
swallowed by its catch (only logged); `staleIgnored` is the silent path for
votes about an already-finalized transaction. -/
inductive VoteOutcome
  | recorded
  | staleIgnored
  | errorCaught (msg : String)
  | protocolError (msg : String)
deriving DecidableEq, Repr

/-- The APPROVE_TRANSACTION / DENY_TRANSACTION branch of `_onMESSAGE`: after
the header and state checks, record the vote on the peer exactly when the
message's `NewHash` equals the local uncommitted hash and its `ID` equals
`_lastSentTransactionID + 1`; inside that case a `NewCount` different from
`getCommitCount() + 1`, or a vote from a configured permafollower, raises an
error that the handler itself catches; everything else is a stale vote and
is ignored.  Returns the disposition and the (possibly updated) peer. -/
def handleVote (state : NodeState) (lastSentTransactionID : Nat) (db : Db)
    (peer : Peer) (m : VoteMsg) : VoteOutcome × Peer :=
  match m.id, m.newCount, m.newHash with
  | none, _, _ => (.protocolError "missing ID", peer)
  | some _, none, _ => (.protocolError "missing NewCount", peer)
  | some _, some _, none => (.protocolError "missing NewHash", peer)
  | some msgId, some newCount, some newHash =>
    if state ≠ NodeState.LEADING ∧ state ≠ NodeState.STANDINGDOWN then
      (.protocolError "not leading", peer)
    else
      let response := if m.isApprove then "approve" else "deny"
      let hashMatch := newHash = db.uncommittedHash
      if hashMatch ∧ toString (lastSentTransactionID + 1) = msgId then
        if newCount ≠ db.commitCount + 1 then
          (.errorCaught "commit count mismatch", peer)
        else if peer.permafollower then
          (.errorCaught "permafollowers shouldn't approve/deny", peer)
        else
          (.recorded, { peer with transactionResponse := response })
      else
        (.staleIgnored, peer)

/-! ## Follower transaction preparation
(`SQLiteNode::handleBeginTransaction`) -/

/-- The headers of a BEGIN_TRANSACTION message that the handler reads, plus
the query carried as content. -/
structure BeginMsg where
  id : Option String
  newCount : Option Nat
  newHash : Option String
  content : String
deriving DecidableEq, Repr

/-- An APPROVE_TRANSACTION / DENY_TRANSACTION reply sent back to the leader:
its verb and its `NewCount`, `NewHash` and `ID` headers. -/
structure VoteReply where
  verb : String
  newCount : Nat
  newHash : String
  id : String
deriving DecidableEq, Repr

/-- The result of `handleBeginTransaction`: the database afterwards, the
replies sent to the lead peer, and the error, if one was raised out of the
handler. -/
structure BeginOutcome where
  db : Db
  sends : List VoteReply
  error : Option String
deriving DecidableEq, Repr

/-- `SQLiteNode::handleBeginTransaction`: validate headers and state,
begin/write/prepare the replicated query, deny on a hash mismatch between
the prepared transaction and the message's `NewHash`, then — only when the
node's priority is non-zero and the transaction `ID` is not an `ASYNC_` one
— send APPROVE_TRANSACTION (or DENY_TRANSACTION) to the lead peer.  A
permafollower (`_priority == 0`) keeps quiet. -/
def handleBeginTransaction (h : String → String → String) (state : NodeState)
    (priority : Int) (haveLeadPeer : Bool) (db : Db) (m : BeginMsg) : BeginOutcome :=
  match m.id, m.newCount, m.newHash with
  | none, _, _ => ⟨db, [], some "missing ID"⟩
  | some _, none, _ => ⟨db, [], some "missing NewCount"⟩
  | some _, some _, none => ⟨db, [], some "missing NewHash"⟩
  | some msgId, some _, some newHash =>
    if state ≠ NodeState.FOLLOWING then ⟨db, [], some "not following"⟩
    else if db.uncommittedHash ≠ "" then ⟨db, [], some "already in a transaction"⟩
    else
      let prepared := db.prepareTxn h m.content
      let success := prepared.uncommittedHash = newHash
      let db' := if success then prepared else prepared.rollback
      if priority ≠ 0 then
        if ¬ msgId.startsWith "ASYNC_" then
          if ¬ haveLeadPeer then ⟨db', [], some "no leader?"⟩
          else
            ⟨db',
             [⟨if success then "APPROVE_TRANSACTION" else "DENY_TRANSACTION",
               db'.commitCount + 1,
               if success then db'.uncommittedHash else newHash,
               msgId⟩],
             none⟩
        else ⟨db', [], none⟩
      else ⟨db', [], none⟩

/-! ## The `_onMESSAGE` entry checks and LOGIN handling -/

/-- The envelope of an inbound peer message as `_onMESSAGE` reads it: the
method line, the mandatory `CommitCount`/`Hash` stamp, and the LOGIN-specific
headers. -/
structure NodeMsg where
  methodLine : String
  commitCount : Option Nat
  hash : Option String
  priority : Option Int
  stateHeader : Option String
  version : Option String
  permafollowerHeader : String
deriving DecidableEq, Repr

/-- `stateFromName`, as used by the LOGIN handler to record the peer's
announced state (unrecognized names map to UNKNOWN). -/
def stateFromName (s : String) : NodeState :=
  if s = "SEARCHING" then .SEARCHING
  else if s = "SYNCHRONIZING" then .SYNCHRONIZING
  else if s = "WAITING" then .WAITING
  else if s = "STANDINGUP" then .STANDINGUP
  else if s = "LEADING" then .LEADING
  else if s = "STANDINGDOWN" then .STANDINGDOWN
  else if s = "SUBSCRIBING" then .SUBSCRIBING
  else if s = "FOLLOWING" then .FOLLOWING
  else .UNKNOWN

/-- The entry of `SQLiteNode::_onMESSAGE` up to and including the LOGIN /
not-logged-in gate: require `CommitCount` and `Hash`, update the peer's
recorded `CommitCount` and `Hash` attributes *before* any further check,
then handle LOGIN (rejecting a second LOGIN with "already logged in" and
enforcing the permafollower agreement), and reject any other message from a
peer that has not logged in ("not logged in").  Returns the peer as updated
so far and the raised error, if any (`none` means the message proceeds to
the per-method dispatch). -/
def onMessageEntry (peer : Peer) (m : NodeMsg) : Peer × Option String :=
  match m.commitCount with
  | none => (peer, some "missing CommitCount")
  | some cc =>
    match m.hash with
    | none => (peer, some "missing Hash")
    | some hsh =>
      let peer := { peer with commitCountAttr := cc, hashAttr := hsh }
      if m.methodLine = "LOGIN" then
        if peer.loggedIn then (peer, some "already logged in")
        else match m.priority, m.stateHeader, m.version with
        | none, _, _ => (peer, some "missing Priority")
        | some _, none, _ => (peer, some "missing State")
        | some _, some _, none => (peer, some "missing Version")
        | some prio, some st, some ver =>
          if peer.permafollower ∧ (m.permafollowerHeader ≠ "true" ∨ 0 < prio) then
            (peer, some "you're supposed to be a 0-priority permafollower")
          else if ¬ peer.permafollower ∧ (m.permafollowerHeader = "true" ∨ prio = 0) then
            (peer, some "you're *not* supposed to be a 0-priority permafollower")
          else
            ({ peer with
                priorityAttr := prio
                loggedIn := true
                versionAttr := ver
                state := stateFromName st }, none)
      else if ¬ peer.loggedIn then (peer, some "not logged in")
      else (peer, none)

/-! ## The state-transition relation used for the permafollower invariant -/

/-- The static configuration relevant to the permafollower invariant:
the configured (original) priority and whether the peer list is empty. -/
structure NodeCfg where
  originalPriority : Int
  noPeers : Bool
deriving DecidableEq, Repr

/-- Every `_changeState` call site of the source, together with the
`_priority` writes, as a transition relation on `(state, priority)` pairs.
Each constructor cites its call sites; premises record only the guards the
permafollower invariant relies on (so the relation over-approximates the
code's behaviour, which is sound for proving safety):

* `toSearching`: the many `SEARCHING` fallbacks (timeouts, disconnects,
  shutdown, anomalies) — possible from any state.
* `searchingLeadNoPeers`: `update()` SEARCHING, "No peers configured,
  jumping to LEADING" — only when the peer list is empty.
* `searchingToSynchronizing`, `searchingToWaiting`: the SEARCHING tick.
* `synchronizingToWaiting`: SYNCHRONIZE_RESPONSE fully applied.
* `waitingToStandup`: the WAITING stand-up branch, which requires
  `_priority > 0` (see `waitingTick`).
* `waitingToSubscribing`: the WAITING subscribe branch.
* `standupToLeading`: STANDINGUP with all approvals and quorum.
* `subscribingToFollowing`: SUBSCRIPTION_APPROVED applied.
* `leadingToStandingdown`: the LEADING stand-down triggers.
* `leadingShutdownPriority`: the graceful-shutdown branch in LEADING that
  sets `_priority = 1` before standing down.
* Entering WAITING always sets `_priority = _originalPriority`
  (`_changeState`, `newState == WAITING`). -/
inductive Step (cfg : NodeCfg) : NodeState × Int → NodeState × Int → Prop
  | toSearching (s : NodeState) (p : Int) : Step cfg (s, p) (.SEARCHING, p)
  | searchingLeadNoPeers (p : Int) (hnp : cfg.noPeers = true) :
      Step cfg (.SEARCHING, p) (.LEADING, p)
  | searchingToSynchronizing (p : Int) : Step cfg (.SEARCHING, p) (.SYNCHRONIZING, p)
  | searchingToWaiting (p : Int) :
      Step cfg (.SEARCHING, p) (.WAITING, cfg.originalPriority)
  | synchronizingToWaiting (p : Int) :
      Step cfg (.SYNCHRONIZING, p) (.WAITING, cfg.originalPriority)
  | waitingToStandup (p : Int) (hp : 0 < p) : Step cfg (.WAITING, p) (.STANDINGUP, p)
  | waitingToSubscribing (p : Int) : Step cfg (.WAITING, p) (.SUBSCRIBING, p)
  | standupToLeading (p : Int) : Step cfg (.STANDINGUP, p) (.LEADING, p)
  | subscribingToFollowing (p : Int) : Step cfg (.SUBSCRIBING, p) (.FOLLOWING, p)
  | leadingToStandingdown (p : Int) : Step cfg (.LEADING, p) (.STANDINGDOWN, p)
  | leadingShutdownPriority (p : Int) : Step cfg (.LEADING, p) (.LEADING, 1)

/-- Reachability along `Step` from the constructor's initial configuration
`(SEARCHING, -1)` (`_state = SEARCHING; _priority = -1;`). -/
def ReachableNode (cfg : NodeCfg) (sp : NodeState × Int) : Prop :=
  Relation.ReflTransGen (Step cfg) (.SEARCHING, -1) sp

/-- A node state that implies leadership of the cluster. -/
def isLeaderish (s : NodeState) : Prop :=
  s = .STANDINGUP ∨ s = .LEADING ∨ s = .STANDINGDOWN

/-- The number of full (non-permafollower) peers that are subscribed and
have approved the current transaction, counted directly (the specification's
"number of full approvals"). -/
def numFullApprovedSpec (peers : List Peer) : Nat :=
  peers.countP fun p => ¬ p.permafollower ∧ p.subscribed ∧ p.transactionResponse = "approve"

/-- A baseline peer record used by the concrete evaluations below. -/
def basePeer : Peer :=
  { permafollower := false
    loggedIn := true
    subscribed := false
    transactionResponse := ""
    commitCountAttr := 0
    hashAttr := ""
    priorityAttr := 0
    versionAttr := ""
    latency := 0
    state := .SEARCHING }

/-- An empty database. -/
def emptyDb : Db := ⟨[], "", ""⟩

/-! ## Lemmas about the commit tally -/

theorem foldl_tallyPeer_fullPeers (peers : List Peer) :
    ∀ c : TallyCounts, (peers.foldl tallyPeer c).fullPeers = c.fullPeers + numFullPeers peers := by
  induction peers with
  | nil => intro c; simp [numFullPeers]
  | cons p ps ih =>
    intro c
    simp only [List.foldl_cons, numFullPeers, List.countP_cons] at *
    rw [ih]
    unfold tallyPeer
    split_ifs <;> simp_all <;> omega

theorem foldl_tallyPeer_fullApproved (peers : List Peer) :
    ∀ c : TallyCounts,
      (peers.foldl tallyPeer c).fullApproved = c.fullApproved + numFullApprovedSpec peers := by
  induction peers with
  | nil => intro c; simp [numFullApprovedSpec]
  | cons p ps ih =>
    intro c
    simp only [List.foldl_cons, numFullApprovedSpec, List.countP_cons] at *
    rw [ih]
    unfold tallyPeer
    split_ifs <;> simp_all <;> omega

theorem tally_fullPeers (peers : List Peer) : (tally peers).fullPeers = numFullPeers peers := by
  simpa using foldl_tallyPeer_fullPeers peers ⟨0, 0, 0, 0, 0⟩

theorem tally_fullApproved (peers : List Peer) :
    (tally peers).fullApproved = numFullApprovedSpec peers := by
  simpa using foldl_tallyPeer_fullApproved peers ⟨0, 0, 0, 0, 0⟩

/-- C2: when the leader resolves a COMMITTING transaction, it computes
`consistent_enough` from the recorded per-peer transaction responses exactly
as the specification states: ASYNC is always consistent enough; ONE is
consistent enough precisely when there are no full peers or at least one
full peer approved; QUORUM is consistent enough precisely when twice the
number of full approvals is at least the number of full peers. -/
theorem consistentEnough_matches_policy (peers : List Peer) (consistency : ConsistencyLevel) :
    consistentEnough consistency (tally peers) = true ↔
      (match consistency with
      | .ASYNC => True
      | .ONE => numFullPeers peers = 0 ∨ 0 < numFullApprovedSpec peers
      | .QUORUM => numFullPeers peers ≤ 2 * numFullApprovedSpec peers) := by
  cases consistency <;>
    simp [consistentEnough, tally_fullPeers, tally_fullApproved] <;> omega

/-! ## C3: leader commit resolution -/

theorem commitTxn_commitCount (db : Db) : db.commitTxn.commitCount = db.commitCount + 1 := by
  simp [Db.commitTxn, Db.commitCount]

/-- C3: resolving a COMMITTING transaction on the leader: whenever a full
subscribed follower denied, or every subscribed full follower responded
without reaching the required consistency, or the transaction is consistent
enough but the local commit reports a conflict, the leader broadcasts
ROLLBACK_TRANSACTION to subscribed followers, rolls the local database back
and sets the commit-state to FAILED; when instead nobody denied, the
transaction is consistent enough and the local commit succeeds, it
broadcasts COMMIT_TRANSACTION, sets `_lastSentTransactionID` to the new
commit count and sets the commit-state to SUCCESS; otherwise it keeps
waiting for responses. -/
theorem committing_resolution_matches_spec (peers : List Peer)
    (consistency : ConsistencyLevel) (conflict : Bool) (lastSent : Nat) (db : Db) :
    (0 < (tally peers).fullDenied ∨
        ((tally peers).fullFollowers ≤ (tally peers).fullResponded ∧
          consistentEnough consistency (tally peers) = false) ∨
        (consistentEnough consistency (tally peers) = true ∧ conflict = true) →
      leadingCommitting peers consistency conflict lastSent db =
        ⟨.FAILED, db.rollback,
          [⟨"ROLLBACK_TRANSACTION", lastSent + 1, some db.uncommittedHash, true⟩],
          lastSent⟩) ∧
    ((tally peers).fullDenied = 0 → consistentEnough consistency (tally peers) = true →
        conflict = false →
      leadingCommitting peers consistency conflict lastSent db =
        ⟨.SUCCESS, db.commitTxn, [⟨"COMMIT_TRANSACTION", lastSent + 1, none, true⟩],
          db.commitCount + 1⟩) ∧
    ((tally peers).fullDenied = 0 → consistentEnough consistency (tally peers) = false →
        ¬ (tally peers).fullFollowers ≤ (tally peers).fullResponded →
      leadingCommitting peers consistency conflict lastSent db =
        ⟨.COMMITTING, db, [], lastSent⟩) := by
  refine ⟨?_, ?_, ?_⟩
  · intro hcond
    unfold leadingCommitting
    rcases hcond with hdeny | ⟨hall, hnc⟩ | ⟨hc, hconf⟩
    · simp_all
    · simp_all
    · by_cases hd : 0 < (tally peers).fullDenied
      · simp_all
      · simp_all
  · intro hdeny hc hconf
    unfold leadingCommitting
    simp_all [commitTxn_commitCount]
  · intro hdeny hnc hnall
    unfold leadingCommitting
    simp_all

/-- Witness for C3 at concrete inputs: a single subscribed full follower
that denied forces a FAILED rollback, and a single approval under ONE
consistency with a clean local commit yields SUCCESS with the new commit
count recorded. -/
theorem committing_resolution_matches_spec_witness :
    leadingCommitting [{ basePeer with subscribed := true, transactionResponse := "deny" }]
        .QUORUM false 7 emptyDb =
      ⟨.FAILED, emptyDb.rollback, [⟨"ROLLBACK_TRANSACTION", 8, some "", true⟩], 7⟩ ∧
    leadingCommitting [{ basePeer with subscribed := true, transactionResponse := "approve" }]
        .ONE false 7 emptyDb =
      ⟨.SUCCESS, emptyDb.commitTxn, [⟨"COMMIT_TRANSACTION", 8, none, true⟩], 1⟩ := by
  constructor
  · exact (committing_resolution_matches_spec _ _ _ _ _).1 (by decide)
  · exact (committing_resolution_matches_spec _ _ _ _ _).2.1 (by decide) (by decide) rfl

/-! ## C10: `_onMESSAGE` entry checks -/

/-- C10: for every inbound message carrying `CommitCount` and `Hash`, a
LOGIN from a peer already marked logged in raises "already logged in", and a
non-LOGIN message from a peer not logged in raises "not logged in"; in both
cases the peer's recorded `CommitCount` and `Hash` attributes have already
been updated from the message when the error is raised. -/
theorem commit_attrs_updated_before_login_errors (peer : Peer) (m : NodeMsg)
    (cc : Nat) (hsh : String) (hcc : m.commitCount = some cc) (hh : m.hash = some hsh) :
    (m.methodLine = "LOGIN" → peer.loggedIn = true →
      onMessageEntry peer m =
        ({ peer with commitCountAttr := cc, hashAttr := hsh }, some "already logged in")) ∧
    (m.methodLine ≠ "LOGIN" → peer.loggedIn = false →
      onMessageEntry peer m =
        ({ peer with commitCountAttr := cc, hashAttr := hsh }, some "not logged in")) := by
  unfold onMessageEntry
  rw [hcc, hh]
  constructor
  · intro hlogin hin
    simp [hlogin, hin]
  · intro hlogin hin
    simp [hlogin, hin]

/-- Witness for C10: a second LOGIN from a logged-in peer, and a STATE
message from a peer that never logged in, both error while still updating
the recorded commit count and hash. -/
theorem commit_attrs_updated_before_login_errors_witness :
    onMessageEntry { basePeer with loggedIn := false }
        ⟨"STATE", some 42, some "abc", none, none, none, ""⟩ =
      ({ basePeer with loggedIn := false, commitCountAttr := 42, hashAttr := "abc" },
        some "not logged in") ∧
    onMessageEntry { basePeer with loggedIn := true }
        ⟨"LOGIN", some 9, some "xyz", some 5, some "WAITING", some "v", "false"⟩ =
      ({ basePeer with loggedIn := true, commitCountAttr := 9, hashAttr := "xyz" },
        some "already logged in") := by
  constructor
  · exact (commit_attrs_updated_before_login_errors _ _ 42 "abc" rfl rfl).2 (by decide) rfl
  · exact (commit_attrs_updated_before_login_errors _ _ 9 "xyz" rfl rfl).1 rfl rfl

/-! ## C7: APPROVE_TRANSACTION / DENY_TRANSACTION handling -/

/-- C7: an inbound APPROVE_TRANSACTION or DENY_TRANSACTION is accepted only
in state LEADING or STANDINGDOWN ("not leading" otherwise); there, the vote
is recorded on the sending peer exactly when the message's `NewHash` equals
the local uncommitted hash and its `ID` equals
`_lastSentTransactionID + 1`; a matching vote whose `NewCount` differs from
the local commit count plus one, or a matching vote from a configured
permafollower, instead raises an error (caught inside the handler), and a
non-matching stale vote is ignored without changing the peer. -/
theorem vote_recording_rules (state : NodeState) (lastSent : Nat) (db : Db)
    (peer : Peer) (m : VoteMsg) (msgId : String) (ncount : Nat) (nhash : String)
    (hid : m.id = some msgId) (hnc : m.newCount = some ncount) (hnh : m.newHash = some nhash) :
    (state ≠ NodeState.LEADING ∧ state ≠ NodeState.STANDINGDOWN →
      handleVote state lastSent db peer m = (.protocolError "not leading", peer)) ∧
    (state = NodeState.LEADING ∨ state = NodeState.STANDINGDOWN →
      (nhash = db.uncommittedHash ∧ toString (lastSent + 1) = msgId →
        (ncount ≠ db.commitCount + 1 →
          handleVote state lastSent db peer m = (.errorCaught "commit count mismatch", peer)) ∧
        (ncount = db.commitCount + 1 → peer.permafollower = true →
          handleVote state lastSent db peer m =
            (.errorCaught "permafollowers shouldn't approve/deny", peer)) ∧
        (ncount = db.commitCount + 1 → peer.permafollower = false →
          handleVote state lastSent db peer m =
            (.recorded,
              { peer with transactionResponse := if m.isApprove then "approve" else "deny" }))) ∧
      (¬ (nhash = db.uncommittedHash ∧ toString (lastSent + 1) = msgId) →
        handleVote state lastSent db peer m = (.staleIgnored, peer))) := by
  unfold handleVote
  rw [hid, hnc, hnh]
  constructor
  · intro hstate
    simp [hstate.1, hstate.2]
  · intro hstate
    have hok : ¬ (state ≠ NodeState.LEADING ∧ state ≠ NodeState.STANDINGDOWN) := by
      rcases hstate with h | h <;> simp [h]
    refine ⟨?_, ?_⟩
    · intro hmatch
      refine ⟨?_, ?_, ?_⟩
      · intro hcount
        simp [hok, hmatch, hcount]
      · intro hcount hperma
        simp [hok, hmatch, hcount, hperma]
      · intro hcount hperma
        simp [hok, hmatch, hcount, hperma]
    · intro hmatch
      simp [hok, hmatch]

/-- Witness for C7 at concrete inputs: a vote in WAITING is rejected with
"not leading"; a matching vote from a full peer is recorded; a matching vote
from a permafollower and a matching vote with a wrong `NewCount` raise
caught errors; a stale vote is ignored. -/
theorem vote_recording_rules_witness :
    handleVote .WAITING 4 { emptyDb with uncommittedHash := "u" } basePeer
        ⟨true, some "5", some 1, some "u"⟩ = (.protocolError "not leading", basePeer) ∧
    handleVote .LEADING 4 { emptyDb with uncommittedHash := "u" } basePeer
        ⟨true, some "5", some 1, some "u"⟩ =
      (.recorded, { basePeer with transactionResponse := "approve" }) ∧
    handleVote .LEADING 4 { emptyDb with uncommittedHash := "u" }
        { basePeer with permafollower := true } ⟨false, some "5", some 1, some "u"⟩ =
      (.errorCaught "permafollowers shouldn't approve/deny",
        { basePeer with permafollower := true }) ∧
    handleVote .LEADING 4 { emptyDb with uncommittedHash := "u" } basePeer
        ⟨true, some "5", some 2, some "u"⟩ = (.errorCaught "commit count mismatch", basePeer) ∧
    handleVote .LEADING 4 { emptyDb with uncommittedHash := "u" } basePeer
        ⟨true, some "9", some 1, some "u"⟩ = (.staleIgnored, basePeer) := by
  refine ⟨?_, ?_, ?_, ?_, ?_⟩
  · exact (vote_recording_rules _ _ _ _ _ _ _ _ rfl rfl rfl).1 (by decide)
  · exact (((vote_recording_rules _ _ _ _ _ _ _ _ rfl rfl rfl).2
      (Or.inl rfl)).1 ⟨rfl, by decide⟩).2.2 rfl rfl
  · exact (((vote_recording_rules _ _ _ _ _ _ _ _ rfl rfl rfl).2
      (Or.inl rfl)).1 ⟨rfl, by decide⟩).2.1 rfl rfl
  · exact (((vote_recording_rules _ _ _ _ _ _ _ _ rfl rfl rfl).2
      (Or.inl rfl)).1 ⟨rfl, by decide⟩).1 (by decide)
  · exact ((vote_recording_rules _ _ _ _ _ _ _ _ rfl rfl rfl).2
      (Or.inl rfl)).2 (by decide)

/-! ## C8: sync-peer selection -/

theorem betterSyncPeer_irrefl (p : Peer) : ¬ betterSyncPeer p p := by
  unfold betterSyncPeer
  omega

theorem betterSyncPeer_asymm {q p : Peer} (h : betterSyncPeer q p) : ¬ betterSyncPeer p q := by
  unfold betterSyncPeer at *
  omega

theorem betterSyncPeer_split {q p b : Peer} (h : betterSyncPeer q p) :
    betterSyncPeer q b ∨ betterSyncPeer b p := by
  unfold betterSyncPeer at *
  omega

/-- Definitional reduction of the loop body when a best peer exists. -/
theorem updateSyncPeerStep_some (cc : Nat) (b p : Peer) :
    updateSyncPeerStep cc (some b) p =
      if ¬ p.loggedIn ∨ p.commitCountAttr ≤ cc then some b
      else if b.latency = p.latency then
        if p.commitCountAttr > b.commitCountAttr then some p else some b
      else if b.latency = 0 then some p
      else if p.latency ≠ 0 ∧ p.latency < b.latency then some p
      else some b := rfl

/-- The loop body keeps the current best exactly when the candidate is not a
strictly better choice. -/
theorem updateSyncPeerStep_spec (cc : Nat) (b p : Peer)
    (hp : p.loggedIn = true ∧ cc < p.commitCountAttr) :
    (betterSyncPeer p b → updateSyncPeerStep cc (some b) p = some p) ∧
    (¬ betterSyncPeer p b → updateSyncPeerStep cc (some b) p = some b) := by
  rw [updateSyncPeerStep_some]
  have h1 : ¬ (¬ p.loggedIn = true ∨ p.commitCountAttr ≤ cc) := by
    push_neg
    exact ⟨hp.1, hp.2⟩
  rw [if_neg h1]
  unfold betterSyncPeer
  constructor
  · intro hb
    split_ifs <;> first | rfl | (exfalso; omega)
  · intro hb
    split_ifs <;> first | rfl | (exfalso; exact hb (by omega))

theorem updateSyncPeerStep_skip (cc : Nat) (best : Option Peer) (p : Peer)
    (hp : ¬ (p.loggedIn = true ∧ cc < p.commitCountAttr)) :
    updateSyncPeerStep cc best p = best := by
  unfold updateSyncPeerStep
  rw [if_pos]
  rcases Bool.eq_false_or_eq_true p.loggedIn with h | h
  · have h2 : ¬ cc < p.commitCountAttr := fun hc => hp ⟨h, hc⟩
    exact Or.inr (by omega)
  · exact Or.inl (by simp [h])

/-- The fold invariant behind `_updateSyncPeer`: starting from accumulator
`best`, the fold returns `none` exactly when it started from `none` and saw
no eligible peer; and whatever it returns is the initial accumulator or an
eligible member of the list, is not beaten by the initial accumulator, and
is not beaten by any eligible member of the list. -/
theorem updateSyncPeer_go (cc : Nat) :
    ∀ (peers : List Peer) (best : Option Peer),
      (peers.foldl (updateSyncPeerStep cc) best = none ↔
        (best = none ∧ ∀ q ∈ peers, ¬ (q.loggedIn = true ∧ cc < q.commitCountAttr))) ∧
      (∀ p, peers.foldl (updateSyncPeerStep cc) best = some p →
        (best = some p ∨ (p ∈ peers ∧ p.loggedIn = true ∧ cc < p.commitCountAttr)) ∧
        (∀ b, best = some b → ¬ betterSyncPeer b p) ∧
        (∀ q ∈ peers, q.loggedIn = true → cc < q.commitCountAttr → ¬ betterSyncPeer q p)) := by
  intro peers
  induction peers with
  | nil =>
    intro best
    refine ⟨by simp, ?_⟩
    intro p hp
    simp only [List.foldl_nil] at hp
    refine ⟨Or.inl hp, ?_, by simp⟩
    intro b hb
    rw [hp] at hb
    cases hb
    exact betterSyncPeer_irrefl p
  | cons a as ih =>
    intro best
    by_cases ha : a.loggedIn = true ∧ cc < a.commitCountAttr
    · -- `a` is eligible: the accumulator after the first step is `some _`.
      obtain ⟨acc, hacc, hrel⟩ :
          ∃ acc, updateSyncPeerStep cc best a = some acc ∧
            ((best = some acc ∧ ¬ betterSyncPeer a acc) ∨
              (acc = a ∧ ∀ b, best = some b → ¬ betterSyncPeer b a)) := by
        match best with
        | none =>
          refine ⟨a, ?_, Or.inr ⟨rfl, by simp⟩⟩
          unfold updateSyncPeerStep
          rw [if_neg (by push_neg; exact ⟨ha.1, ha.2⟩)]
        | some b =>
          by_cases hba : betterSyncPeer a b
          · refine ⟨a, (updateSyncPeerStep_spec cc b a ha).1 hba, Or.inr ⟨rfl, ?_⟩⟩
            intro b' hb'
            cases hb'
            exact betterSyncPeer_asymm hba
          · exact ⟨b, (updateSyncPeerStep_spec cc b a ha).2 hba, Or.inl ⟨rfl, hba⟩⟩
      constructor
      · rw [List.foldl_cons, hacc]
        constructor
        · intro hnone
          exact absurd (((ih (some acc)).1.mp hnone).1) (by simp)
        · rintro ⟨-, hall⟩
          exact absurd ha (hall a (by simp))
      · intro p hp
        rw [List.foldl_cons, hacc] at hp
        obtain ⟨hsrc, hbacc, hqs⟩ := (ih (some acc)).2 p hp
        have hnotbetter_acc : ¬ betterSyncPeer acc p := hbacc acc rfl
        have hnotbetter_a : ¬ betterSyncPeer a p := by
          rcases hrel with ⟨-, hna⟩ | ⟨heq, -⟩
          · intro hap
            rcases betterSyncPeer_split (b := acc) hap with h | h
            · exact hna h
            · exact hnotbetter_acc h
          · rw [← heq]
            exact hnotbetter_acc
        refine ⟨?_, ?_, ?_⟩
        · rcases hsrc with hs | hs
          · have hacc_p : acc = p := by injection hs
            rcases hrel with ⟨hb, -⟩ | ⟨heq, -⟩
            · exact Or.inl (by rw [hb, hacc_p])
            · have hpa : p = a := by rw [← hacc_p, heq]
              exact Or.inr ⟨by rw [hpa]; exact List.mem_cons_self a as,
                by rw [hpa]; exact ha.1, by rw [hpa]; exact ha.2⟩
          · exact Or.inr ⟨List.mem_cons_of_mem a hs.1, hs.2.1, hs.2.2⟩
        · intro b hb
          rcases hrel with ⟨hbest, -⟩ | ⟨heq, hnb⟩
          · have hbacc' : b = acc := Option.some.inj (hb.symm.trans hbest)
            rw [hbacc']
            exact hnotbetter_acc
          · intro hbp
            rcases betterSyncPeer_split (b := a) hbp with h | h
            · exact hnb b hb h
            · exact hnotbetter_a h
        · intro q hq hql hqc
          rcases List.mem_cons.mp hq with hqa | hqas
          · rw [hqa]
            exact hnotbetter_a
          · exact hqs q hqas hql hqc
    · -- `a` is ineligible: the step is the identity on the accumulator.
      have hstep : updateSyncPeerStep cc best a = best := updateSyncPeerStep_skip cc best a ha
      constructor
      · rw [List.foldl_cons, hstep]
        rw [(ih best).1]
        constructor
        · rintro ⟨hb, hall⟩
          refine ⟨hb, ?_⟩
          intro q hq
          rcases List.mem_cons.mp hq with hqa | hqas
          · exact hqa ▸ ha
          · exact hall q hqas
        · rintro ⟨hb, hall⟩
          exact ⟨hb, fun q hq => hall q (List.mem_cons_of_mem a hq)⟩
      · intro p hp
        rw [List.foldl_cons, hstep] at hp
        obtain ⟨hsrc, hbacc, hqs⟩ := (ih best).2 p hp
        refine ⟨?_, hbacc, ?_⟩
        · rcases hsrc with hs | hs
          · exact Or.inl hs
          · exact Or.inr ⟨List.mem_cons_of_mem a hs.1, hs.2⟩
        · intro q hq hql hqc
          rcases List.mem_cons.mp hq with hqa | hqas
          · exact absurd (hqa ▸ ⟨hql, hqc⟩) ha
          · exact hqs q hqas hql hqc

/-- C8: `_updateSyncPeer` considers exactly the logged-in peers whose commit
count strictly exceeds the local one — it returns a peer if and only if such
a peer exists — and the peer it selects is one of them and is beaten by no
other: no considered peer has the same latency with a higher commit count,
and no considered peer with non-zero latency is strictly faster or beats a
zero-latency selection. -/
theorem updateSyncPeer_selects_best (peers : List Peer) (cc : Nat) :
    (∀ p, updateSyncPeer peers cc = some p →
      p ∈ peers ∧ p.loggedIn = true ∧ cc < p.commitCountAttr ∧
        ∀ q ∈ peers, q.loggedIn = true → cc < q.commitCountAttr → ¬ betterSyncPeer q p) ∧
    (updateSyncPeer peers cc = none ↔
      ∀ q ∈ peers, ¬ (q.loggedIn = true ∧ cc < q.commitCountAttr)) := by
  constructor
  · intro p hp
    obtain ⟨hsrc, -, hqs⟩ := (updateSyncPeer_go cc peers none).2 p hp
    rcases hsrc with hs | hs
    · cases hs
    · exact ⟨hs.1, hs.2.1, hs.2.2, hqs⟩
  · unfold updateSyncPeer
    rw [(updateSyncPeer_go cc peers none).1]
    simp

/-- Witness for C8: among two eligible peers the one with the lower non-zero
latency is chosen; with no eligible peers nothing is chosen. -/
theorem updateSyncPeer_selects_best_witness :
    updateSyncPeer
        [{ basePeer with commitCountAttr := 5, latency := 900 },
         { basePeer with commitCountAttr := 4, latency := 300 }] 2 =
      some { basePeer with commitCountAttr := 4, latency := 300 } ∧
    ({ basePeer with commitCountAttr := 4, latency := 300 } : Peer).loggedIn = true ∧
    2 < ({ basePeer with commitCountAttr := 4, latency := 300 } : Peer).commitCountAttr ∧
    ¬ betterSyncPeer { basePeer with commitCountAttr := 5, latency := 900 }
        { basePeer with commitCountAttr := 4, latency := 300 } ∧
    updateSyncPeer [{ basePeer with loggedIn := false, commitCountAttr := 5 }] 2 = none := by
  have h := (updateSyncPeer_selects_best
    [{ basePeer with commitCountAttr := 5, latency := 900 },
     { basePeer with commitCountAttr := 4, latency := 300 }] 2).1
    { basePeer with commitCountAttr := 4, latency := 300 } (by decide)
  refine ⟨by decide, h.2.1, h.2.2.1, ?_, ?_⟩
  · exact h.2.2.2 _ (by simp) (by decide) (by decide)
  · exact (updateSyncPeer_selects_best _ 2).2.mpr (by decide)

/-! ## C5: the SEARCHING tick -/

/-- The freshest-peer fold only ever returns a logged-in member of the
list (or its initial accumulator). -/
theorem freshestLoggedInPeer_go (peers : List Peer) :
    ∀ (best : Option Peer) (f : Peer),
      peers.foldl
          (fun best p =>
            if ¬ p.loggedIn then best
            else match best with
            | none => some p
            | some b => if p.commitCountAttr > b.commitCountAttr then some p else some b)
          best = some f →
        best = some f ∨ (f ∈ peers ∧ f.loggedIn = true) := by
  induction peers with
  | nil => intro best f hf; exact Or.inl hf
  | cons a as ih =>
    intro best f hf
    rw [List.foldl_cons] at hf
    rcases ih _ f hf with hstep | hmem
    · by_cases hl : a.loggedIn = true
      · rw [if_neg (by simp [hl])] at hstep
        match best, hstep with
        | none, hstep =>
          exact Or.inr ⟨by simp [← Option.some.inj hstep], by
            rw [← Option.some.inj hstep]; exact hl⟩
        | some b, hstep =>
          have hstep' : (if a.commitCountAttr > b.commitCountAttr
              then some a else some b) = some f := hstep
          by_cases hgt : a.commitCountAttr > b.commitCountAttr
          · rw [if_pos hgt] at hstep'
            exact Or.inr ⟨by simp [← Option.some.inj hstep'], by
              rw [← Option.some.inj hstep']; exact hl⟩
          · rw [if_neg hgt] at hstep'
            exact Or.inl hstep'
      · rw [if_pos (by simp [Bool.eq_false_iff.mpr] at hl ⊢; simp [hl])] at hstep
        exact Or.inl hstep
    · exact Or.inr ⟨List.mem_cons_of_mem a hmem.1, hmem.2⟩

theorem freshestLoggedInPeer_mem (peers : List Peer) (f : Peer)
    (hf : freshestLoggedInPeer peers = some f) : f ∈ peers ∧ f.loggedIn = true := by
  rcases freshestLoggedInPeer_go peers none f hf with h | h
  · cases h
  · exact h

/-- C5: the SEARCHING tick (absent a completed shutdown): with no peers
configured, the node jumps straight to LEADING with the database (and hence
the commit count) unchanged; otherwise, once at least half of the full peers
are logged in or the state timeout has passed, the node goes to WAITING when
nobody is logged in, or when the freshest logged-in peer's commit count
equals or is below the local one; and exactly when the freshest peer's
commit count strictly exceeds the local one, the node sends SYNCHRONIZE to
the sync peer selected by `_updateSyncPeer` and goes to SYNCHRONIZING. -/
theorem searching_tick_transitions (timeoutReached : Bool) (db : Db) (peers : List Peer) :
    (peers = [] → searchingTick false timeoutReached db peers = ⟨.LEADING, [], db⟩) ∧
    (peers ≠ [] →
      (2 * numLoggedInFullPeers peers ≥ numFullPeers peers ∨ timeoutReached = true) →
      (freshestLoggedInPeer peers = none →
        searchingTick false timeoutReached db peers = ⟨.WAITING, [], db⟩) ∧
      (∀ f, freshestLoggedInPeer peers = some f →
        (f.commitCountAttr = db.commitCount →
          searchingTick false timeoutReached db peers = ⟨.WAITING, [], db⟩) ∧
        (f.commitCountAttr < db.commitCount →
          searchingTick false timeoutReached db peers = ⟨.WAITING, [], db⟩) ∧
        (db.commitCount < f.commitCountAttr →
          ∃ sp, updateSyncPeer peers db.commitCount = some sp ∧
            searchingTick false timeoutReached db peers =
              ⟨.SYNCHRONIZING, [("SYNCHRONIZE", sp)], db⟩))) := by
  constructor
  · intro hempty
    simp [searchingTick, hempty]
  · intro hne hgate
    have hgate2 : 2 * numLoggedInFullPeers peers < numFullPeers peers →
        timeoutReached = true := by
      intro hlt
      rcases hgate with h | h
      · omega
      · exact h
    constructor
    · intro hfresh
      simp [searchingTick, hne, hfresh]
      all_goals exact hgate2
    · intro f hfresh
      refine ⟨?_, ?_, ?_⟩
      · intro heq
        simp [searchingTick, hne, hfresh, heq]
        all_goals exact hgate2
      · intro hlt
        simp [searchingTick, hne, hfresh, hlt, Nat.ne_of_lt hlt]
        all_goals exact hgate2
      · intro hgt
        have hmem := freshestLoggedInPeer_mem peers f hfresh
        have hsome : ∃ sp, updateSyncPeer peers db.commitCount = some sp := by
          rcases hsp : updateSyncPeer peers db.commitCount with - | sp
          · exact absurd ⟨hmem.2, hgt⟩
              ((updateSyncPeer_selects_best peers db.commitCount).2.mp hsp f hmem.1)
          · exact ⟨sp, rfl⟩
        obtain ⟨sp, hsp⟩ := hsome
        refine ⟨sp, hsp, ?_⟩
        simp [searchingTick, hne, hfresh, hsp, Nat.ne_of_gt hgt,
          Nat.not_lt.mpr (Nat.le_of_lt hgt)]
        all_goals exact hgate2

/-- Witness for C5 at concrete inputs: with no peers the tick yields LEADING
with the database untouched; with one logged-in fresher peer the tick
selects it and goes SYNCHRONIZING; with a stale peer it goes WAITING. -/
theorem searching_tick_transitions_witness :
    searchingTick false false emptyDb [] = ⟨.LEADING, [], emptyDb⟩ ∧
    searchingTick false false emptyDb [{ basePeer with commitCountAttr := 3 }] =
      ⟨.SYNCHRONIZING, [("SYNCHRONIZE", { basePeer with commitCountAttr := 3 })], emptyDb⟩ ∧
    searchingTick false true emptyDb [{ basePeer with commitCountAttr := 0 }] =
      ⟨.WAITING, [], emptyDb⟩ := by
  refine ⟨(searching_tick_transitions false emptyDb []).1 rfl, ?_, ?_⟩
  · obtain ⟨sp, hsp, hout⟩ :=
      (((searching_tick_transitions false emptyDb
            [{ basePeer with commitCountAttr := 3 }]).2 (by decide) (by decide)).2
        { basePeer with commitCountAttr := 3 } (by decide)).2.2 (by decide)
    have : sp = { basePeer with commitCountAttr := 3 } := by
      have h3 : updateSyncPeer [{ basePeer with commitCountAttr := 3 }] emptyDb.commitCount =
          some { basePeer with commitCountAttr := 3 } := by decide
      exact Option.some.inj (hsp.symm.trans h3)
    rw [this] at hout
    exact hout
  · exact (((searching_tick_transitions true emptyDb
        [{ basePeer with commitCountAttr := 0 }]).2 (by decide) (by decide)).2
      { basePeer with commitCountAttr := 0 } (by decide)).1 (by decide)

/-! ## C6: the WAITING subscribe branch -/

/-- C6 (amended): in state WAITING with no graceful shutdown under way, when
the WAITING loop's computed candidate leader — the *last* logged-in full
peer in configured order whose observed state is STANDINGUP, LEADING or
STANDINGDOWN — is in state LEADING, and the highest priority among
logged-in full peers exceeds the node's own priority, the node sends
SUBSCRIBE to that candidate, records it as the lead peer, and transitions
to SUBSCRIBING. -/
theorem waiting_subscribe_when_candidate_leading (myPriority : Int)
    (localCommitCount : Nat) (peers : List Peer) (l highest : Peer)
    (hl : currentLeader peers = some l) (hls : l.state = .LEADING)
    (hh : highestPriorityPeer peers = some highest)
    (hpr : myPriority < highest.priorityAttr) :
    waitingTick false myPriority localCommitCount peers =
      ⟨.SUBSCRIBING, [("SUBSCRIBE", l)], some l⟩ := by
  unfold waitingTick
  rw [hh]
  simp [hl, hls, hpr]

/-- Witness for C6 (amended) at a concrete input: a single logged-in full
LEADING peer of higher priority is subscribed to. -/
theorem waiting_subscribe_when_candidate_leading_witness :
    waitingTick false 50 0 [{ basePeer with priorityAttr := 100, state := .LEADING }] =
      ⟨.SUBSCRIBING, [("SUBSCRIBE", { basePeer with priorityAttr := 100, state := .LEADING })],
        some { basePeer with priorityAttr := 100, state := .LEADING }⟩ :=
  waiting_subscribe_when_candidate_leading 50 0
    [{ basePeer with priorityAttr := 100, state := .LEADING }]
    { basePeer with priorityAttr := 100, state := .LEADING }
    { basePeer with priorityAttr := 100, state := .LEADING }
    (by decide) rfl (by decide) (by decide)

/-- Counterexample to C6 as stated: a logged-in full peer in state LEADING
with priority 100 (higher than our 50) exists, yet because a later peer in
configured order is STANDINGUP, the loop's candidate-leader slot is
overwritten by that non-LEADING peer and the tick stays in WAITING without
sending SUBSCRIBE. -/
theorem waiting_subscribe_missed_leader :
    waitingTick false 50 0
        [{ basePeer with priorityAttr := 100, state := .LEADING },
         { basePeer with priorityAttr := 10, state := .STANDINGUP }] =
      ⟨.WAITING, [], none⟩ ∧
    ({ basePeer with priorityAttr := 100, state := .LEADING } : Peer).loggedIn = true ∧
    ({ basePeer with priorityAttr := 100, state := .LEADING } : Peer).permafollower = false ∧
    ({ basePeer with priorityAttr := 100, state := .LEADING } : Peer).state = .LEADING ∧
    (50 : Int) < ({ basePeer with priorityAttr := 100, state := .LEADING } : Peer).priorityAttr := by
  refine ⟨?_, rfl, rfl, rfl, by decide⟩
  decide

/-! ## C9: permafollowers and leadership -/

/-- Safety along `Step`: with at least one configured peer and a
non-positive configured priority, no reachable state is STANDINGUP, LEADING
or STANDINGDOWN, and the priority stays non-positive. -/
theorem reachable_permafollower_safe (cfg : NodeCfg) (hnp : cfg.noPeers = false)
    (hop : cfg.originalPriority ≤ 0) :
    ∀ sp : NodeState × Int, ReachableNode cfg sp → ¬ isLeaderish sp.1 ∧ sp.2 ≤ 0 := by
  intro sp hr
  unfold ReachableNode at hr
  induction hr with
  | refl => exact ⟨by simp [isLeaderish], by norm_num⟩
  | tail hpre hstep ih =>
    cases hstep with
    | toSearching s p => exact ⟨by simp [isLeaderish], ih.2⟩
    | searchingLeadNoPeers p hnp' => rw [hnp] at hnp'; cases hnp'
    | searchingToSynchronizing p => exact ⟨by simp [isLeaderish], ih.2⟩
    | searchingToWaiting p => exact ⟨by simp [isLeaderish], hop⟩
    | synchronizingToWaiting p => exact ⟨by simp [isLeaderish], hop⟩
    | waitingToStandup p hp => exact absurd hp (by omega)
    | waitingToSubscribing p => exact ⟨by simp [isLeaderish], ih.2⟩
    | standupToLeading p => exact absurd (Or.inl rfl) ih.1
    | subscribingToFollowing p => exact ⟨by simp [isLeaderish], ih.2⟩
    | leadingToStandingdown p => exact absurd (Or.inr (Or.inl rfl)) ih.1
    | leadingShutdownPriority p => exact absurd (Or.inr (Or.inl rfl)) ih.1

/-- The WAITING tick stands up only with a strictly positive priority. -/
theorem waitingTick_standup_needs_positive_priority (sh : Bool) (pri : Int)
    (cc : Nat) (peers : List Peer)
    (hnext : (waitingTick sh pri cc peers).next = .STANDINGUP) : 0 < pri := by
  unfold waitingTick at hnext
  rcases hh : highestPriorityPeer peers with _ | hi <;> rw [hh] at hnext
  · repeat' split at hnext
    all_goals simp_all
  · rcases hcl : currentLeader peers with _ | l <;> rw [hcl] at hnext <;>
      repeat' split at hnext <;> simp_all

/-- With at least one configured peer, the SEARCHING tick never yields
LEADING. -/
theorem searchingTick_no_leading_with_peers (sh t : Bool) (db : Db)
    (peers : List Peer) (hne : peers ≠ []) :
    (searchingTick sh t db peers).next ≠ .LEADING := by
  intro hnext
  unfold searchingTick at hnext
  rcases hf : freshestLoggedInPeer peers with _ | f <;> rw [hf] at hnext
  · repeat' split at hnext
    all_goals simp_all
  · rcases hsp : updateSyncPeer peers db.commitCount with _ | sp <;> rw [hsp] at hnext <;>
      repeat' split at hnext
    all_goals simp_all

/-- C9 (amended): a permafollower that has at least one configured peer
never reaches STANDINGUP, LEADING or STANDINGDOWN, and its priority never
becomes positive; the WAITING stand-up branch requires a strictly positive
priority; the SEARCHING tick cannot yield LEADING when a peer is
configured; a follower with priority 0 sends no APPROVE_TRANSACTION or
DENY_TRANSACTION after preparing a replicated transaction; and the leader
raises a (caught) error on any vote for the outstanding transaction
arriving from a peer configured as a permafollower (stale permafollower
votes are ignored like any stale vote). -/
theorem permafollower_never_leads_with_peers :
    (∀ (cfg : NodeCfg) (s : NodeState) (p : Int), cfg.noPeers = false →
      cfg.originalPriority ≤ 0 → ReachableNode cfg (s, p) → ¬ isLeaderish s ∧ p ≤ 0) ∧
    (∀ (sh : Bool) (pri : Int) (cc : Nat) (peers : List Peer),
      (waitingTick sh pri cc peers).next = .STANDINGUP → 0 < pri) ∧
    (∀ (sh t : Bool) (db : Db) (peers : List Peer), peers ≠ [] →
      (searchingTick sh t db peers).next ≠ .LEADING) ∧
    (∀ (h : String → String → String) (st : NodeState) (lead : Bool) (db : Db) (m : BeginMsg),
      (handleBeginTransaction h st 0 lead db m).sends = []) ∧
    (∀ (st : NodeState) (lastSent : Nat) (db : Db) (peer : Peer) (m : VoteMsg)
      (ncount : Nat), st = .LEADING ∨ st = .STANDINGDOWN →
      m.id = some (toString (lastSent + 1)) → m.newCount = some ncount →
      m.newHash = some db.uncommittedHash → ncount = db.commitCount + 1 →
      peer.permafollower = true →
      handleVote st lastSent db peer m =
        (.errorCaught "permafollowers shouldn't approve/deny", peer)) := by
  refine ⟨?_, ?_, ?_, ?_, ?_⟩
  · intro cfg s p hnp hop hr
    exact reachable_permafollower_safe cfg hnp hop (s, p) hr
  · exact waitingTick_standup_needs_positive_priority
  · exact searchingTick_no_leading_with_peers
  · intro h st lead db m
    unfold handleBeginTransaction
    split
    · rfl
    · rfl
    · rfl
    · split
      · rfl
      · split
        · rfl
        · simp
  · intro st lastSent db peer m ncount hst hid hnc hnh hcount hperma
    exact (((vote_recording_rules st lastSent db peer m _ _ _ hid hnc hnh).2 hst).1
      ⟨rfl, rfl⟩).2.1 hcount hperma

/-- Witness for C9 (amended) at concrete inputs: from the initial state, a
one-peer permafollower configuration reaches WAITING with priority 0 and
that state is not leaderish; a zero-priority follower prepares a replicated
transaction without replying; a matching permafollower vote is rejected
with a caught error. -/
theorem permafollower_never_leads_with_peers_witness :
    (¬ isLeaderish (NodeState.WAITING) ∧ (0 : Int) ≤ 0) ∧
    (handleBeginTransaction (fun p q => p ++ q) .FOLLOWING 0 true emptyDb
      ⟨some "1", some 1, some "q", "q"⟩).sends = [] ∧
    handleVote .LEADING 4 { emptyDb with uncommittedHash := "u" }
        { basePeer with permafollower := true } ⟨true, some "5", some 1, some "u"⟩ =
      (.errorCaught "permafollowers shouldn't approve/deny",
        { basePeer with permafollower := true }) := by
  refine ⟨?_, ?_, ?_⟩
  · exact permafollower_never_leads_with_peers.1 ⟨0, false⟩ .WAITING 0 rfl (by norm_num)
      (Relation.ReflTransGen.single (Step.searchingToWaiting (-1)))
  · exact permafollower_never_leads_with_peers.2.2.2.1 _ _ _ _ _
  · exact permafollower_never_leads_with_peers.2.2.2.2 .LEADING 4 _ _ _ 1 (Or.inl rfl)
      (by decide) rfl rfl rfl rfl

/-- Counterexample to C9 as stated: the SEARCHING tick of a node with *no*
configured peers jumps straight to LEADING with no priority check at all, so
a node configured with priority 0 (a permafollower by the claim's own
definition) enters LEADING; moreover a *stale* vote from a permafollower is
silently ignored rather than raising an error. -/
theorem permafollower_can_lead_without_peers :
    searchingTick false false emptyDb [] = ⟨.LEADING, [], emptyDb⟩ ∧
    ReachableNode ⟨0, true⟩ (.LEADING, -1) ∧
    handleVote .LEADING 5 { emptyDb with uncommittedHash := "u" }
        { basePeer with permafollower := true } ⟨true, some "9", some 1, some "u"⟩ =
      (.staleIgnored, { basePeer with permafollower := true }) := by
  refine ⟨by decide, ?_, by decide⟩
  exact Relation.ReflTransGen.single (Step.searchingLeadNoPeers (-1) rfl)

/-! ## C1: commit-count discipline of the replication receivers -/

theorem prepareTxn_commitCount (h : String → String → String) (db : Db) (q : String) :
    (db.prepareTxn h q).commitCount = db.commitCount := rfl

theorem commitTxn_committedHash (db : Db) : db.commitTxn.committedHash = db.uncommittedHash := by
  simp [Db.commitTxn, Db.committedHash]

/-- One synchronization step leaves the database unchanged or advances the
commit count by exactly one. -/
theorem applySyncCommit_fst (h : String → String → String) (db : Db) (m : SyncCommitMsg) :
    (applySyncCommit h db m).1 = db ∨
      (applySyncCommit h db m).1.commitCount = db.commitCount + 1 := by
  unfold applySyncCommit
  repeat' split
  all_goals simp [commitTxn_commitCount, prepareTxn_commitCount]

/-- A successful synchronization step advances the commit count by exactly
one, consumed a `COMMIT` whose `CommitIndex` was exactly the old count plus
one, and left a committed hash equal to the declared one. -/
theorem applySyncCommit_ok (h : String → String → String) (db : Db) (m : SyncCommitMsg)
    (db' : Db) (hok : applySyncCommit h db m = (db', none)) :
    db'.commitCount = db.commitCount + 1 ∧
      m.commitIndex = some ((db.commitCount + 1 : Nat) : Int) ∧
      m.hash = some db'.committedHash := by
  unfold applySyncCommit at hok
  repeat' split at hok
  all_goals simp_all [commitTxn_commitCount, prepareTxn_commitCount]
  all_goals obtain ⟨h1, h2⟩ := hok
  all_goals subst h1
  all_goals simp_all [commitTxn_commitCount, prepareTxn_commitCount]
  all_goals try omega

theorem recvSynchronizeLoop_mono (h : String → String → String) :
    ∀ (msgs : List SyncCommitMsg) (db : Db),
      db.commitCount ≤ (recvSynchronizeLoop h db msgs).1.commitCount := by
  intro msgs
  induction msgs with
  | nil => intro db; simp [recvSynchronizeLoop]
  | cons m ms ih =>
    intro db
    unfold recvSynchronizeLoop
    rcases happ : applySyncCommit h db m with ⟨db', err⟩
    have hstep : db' = db ∨ db'.commitCount = db.commitCount + 1 := by
      have := applySyncCommit_fst h db m
      rw [happ] at this
      exact this
    cases err with
    | none =>
      simp only []
      calc db.commitCount ≤ db'.commitCount := by rcases hstep with rfl | hs <;> omega
        _ ≤ _ := ih db'
    | some e =>
      simp only []
      rcases hstep with rfl | hs <;> omega

theorem recvSynchronizeLoop_ok (h : String → String → String) :
    ∀ (msgs : List SyncCommitMsg) (db : Db),
      (recvSynchronizeLoop h db msgs).2.2 = none →
      (recvSynchronizeLoop h db msgs).1.commitCount = db.commitCount + msgs.length ∧
        (recvSynchronizeLoop h db msgs).2.1 = msgs.length := by
  intro msgs
  induction msgs with
  | nil => intro db _; simp [recvSynchronizeLoop]
  | cons m ms ih =>
    intro db hnone
    unfold recvSynchronizeLoop at hnone ⊢
    rcases happ : applySyncCommit h db m with ⟨db', err⟩
    rw [happ] at hnone
    cases err with
    | none =>
      simp only [] at hnone ⊢
      have hone := applySyncCommit_ok h db m db' happ
      have := ih db' hnone
      constructor
      · rw [this.1, hone.1, List.length_cons]
        omega
      · rw [this.2, List.length_cons]
    | some e => simp at hnone

/-- C1: commit-count discipline.  Synchronization never decreases the local
commit count; a fully successful synchronization run advances it by exactly
one per embedded COMMIT, each of which must carry `CommitIndex` equal to the
current commit count plus one (raising "commit index mismatch" otherwise,
with the database untouched), and must leave a committed hash equal to its
declared hash (raising "potential hash mismatch" after the commit is
applied otherwise); and `handleCommitTransaction` commits only in state
FOLLOWING with the entry's commit count equal to the local count plus one
(raising "commit count mismatch" otherwise), advancing the count by exactly
one. -/
theorem commit_count_increments_per_applied_commit :
    (∀ (h : String → String → String) (db : Db) (n : Option Int) (msgs : List SyncCommitMsg),
      db.commitCount ≤ (recvSynchronize h db n msgs).1.commitCount) ∧
    (∀ (h : String → String → String) (db : Db) (n : Option Int) (msgs : List SyncCommitMsg),
      (recvSynchronize h db n msgs).2 = none →
      (recvSynchronize h db n msgs).1.commitCount = db.commitCount + msgs.length) ∧
    (∀ (h : String → String → String) (db : Db) (m : SyncCommitMsg) (idx : Int) (dh : String),
      m.methodLine = "COMMIT" → m.commitIndex = some idx → ¬ idx < 0 → m.hash = some dh →
      idx.toNat ≠ db.commitCount + 1 →
      applySyncCommit h db m = (db, some "commit index mismatch")) ∧
    (∀ (h : String → String → String) (db : Db) (m : SyncCommitMsg) (db' : Db),
      applySyncCommit h db m = (db', none) →
      db'.commitCount = db.commitCount + 1 ∧
        m.commitIndex = some ((db.commitCount + 1 : Nat) : Int) ∧
        m.hash = some db'.committedHash) ∧
    (∀ (h : String → String → String) (db : Db) (m : SyncCommitMsg) (idx : Int) (dh : String),
      m.methodLine = "COMMIT" → m.commitIndex = some idx → ¬ idx < 0 → m.hash = some dh →
      idx.toNat = db.commitCount + 1 →
      ((db.prepareTxn h m.content).commitTxn).committedHash ≠ dh →
      applySyncCommit h db m =
        ((db.prepareTxn h m.content).commitTxn, some "potential hash mismatch")) ∧
    (∀ (st : NodeState) (db : Db) (c : Nat) (ch : String) (db' : Db),
      handleCommitTransaction st db c ch = .ok db' →
      st = .FOLLOWING ∧ c = db.commitCount + 1 ∧ db'.commitCount = db.commitCount + 1) ∧
    (∀ (db : Db) (c : Nat) (ch : String), db.uncommittedHash ≠ "" → c ≠ db.commitCount + 1 →
      handleCommitTransaction .FOLLOWING db c ch = .error "commit count mismatch") := by
  refine ⟨?_, ?_, ?_, ?_, ?_, ?_, ?_⟩
  · intro h db n msgs
    cases n with
    | none => simp [recvSynchronize]
    | some n => exact recvSynchronizeLoop_mono h msgs db
  · intro h db n msgs hnone
    cases n with
    | none => simp [recvSynchronize] at hnone
    | some n =>
      have hnone' : (match (recvSynchronizeLoop h db msgs).2.2 with
          | some e => some e
          | none => if (n : Int) - (recvSynchronizeLoop h db msgs).2.1 ≠ 0 then
              some "commits remaining at end" else none) = none := hnone
      rcases herr : (recvSynchronizeLoop h db msgs).2.2 with - | e
      · exact (recvSynchronizeLoop_ok h msgs db herr).1
      · rw [herr] at hnone'
        simp at hnone'
  · intro h db m idx dh hml hidx hneg hdh hne
    unfold applySyncCommit
    simp [hml, hidx, hdh, hneg, hne]
  · exact fun h db m db' hok => applySyncCommit_ok h db m db' hok
  · intro h db m idx dh hml hidx hneg hdh heq hhash
    unfold applySyncCommit
    simp [hml, hidx, hdh, hneg, heq, hhash]
  · intro st db c ch db' hok
    unfold handleCommitTransaction at hok
    split at hok
    · cases hok
    · split at hok
      · cases hok
      · split at hok
        · cases hok
        · split at hok
          · cases hok
          · cases hok
            refine ⟨of_not_not (by assumption), by omega, commitTxn_commitCount db⟩
  · intro db c ch hun hc
    unfold handleCommitTransaction
    rw [if_neg (by simp), if_neg hun, if_pos hc]

/-- Witness for C1: a two-COMMIT synchronization run on an empty database
ends at commit count 2 with no error, a wrong `CommitIndex` errors with the
database untouched, and a COMMIT_TRANSACTION one past the local count
commits while a stale one errors. -/
theorem commit_count_increments_per_applied_commit_witness :
    (recvSynchronize (fun p q => p ++ "|" ++ q) emptyDb (some 2)
        [⟨"COMMIT", some 1, some "|a", "a"⟩, ⟨"COMMIT", some 2, some "|a|b", "b"⟩]).1.commitCount
      = 0 + 2 ∧
    applySyncCommit (fun p q => p ++ "|" ++ q) emptyDb ⟨"COMMIT", some 7, some "x", "a"⟩ =
      (emptyDb, some "commit index mismatch") ∧
    (∀ db', handleCommitTransaction .FOLLOWING
        { emptyDb with uncommittedHash := "u", uncommittedQuery := "q" } 1 "u" = .ok db' →
        db'.commitCount = 0 + 1) ∧
    handleCommitTransaction .FOLLOWING
        { emptyDb with uncommittedHash := "u", uncommittedQuery := "q" } 5 "u" =
      .error "commit count mismatch" := by
  refine ⟨?_, ?_, ?_, ?_⟩
  · exact commit_count_increments_per_applied_commit.2.1 _ _ _ _ (by decide)
  · exact commit_count_increments_per_applied_commit.2.2.1 _ _ _ 7 "x" rfl rfl
      (by decide) rfl (by decide)
  · intro db' hok
    exact (commit_count_increments_per_applied_commit.2.2.2.2.2.1 _ _ _ _ _ hok).2.2
  · exact commit_count_increments_per_applied_commit.2.2.2.2.2.2 _ _ _ (by decide) (by decide)

/-! ## C4: the synchronization responder -/

theorem getCommits_length (db : Db) (f t : Nat) (hf : 1 ≤ f) (ht : t ≤ db.commitCount) :
    (db.getCommits f t).length = t + 1 - f := by
  unfold Db.getCommits
  rw [List.length_take, List.length_drop]
  unfold Db.commitCount at ht
  omega

theorem getCommits_getElem (db : Db) (f t i : Nat) (hf : 1 ≤ f)
    (hi : i < (db.getCommits f t).length) :
    (db.getCommits f t)[i]? = db.commits[f - 1 + i]? := by
  unfold Db.getCommits at hi ⊢
  rw [List.getElem?_take_of_lt, List.getElem?_drop]
  rw [List.length_take, List.length_drop] at hi
  omega

/-- C4 (amended): the SYNCHRONIZE responder raises "you have more data than
me" whenever the requester's commit count exceeds the responder's; when the
requester has at least one commit it raises the fatal "hash mismatch"
whenever the responder's hash at the requester's commit count differs from
the requester's `Hash`; and otherwise (requester not beyond the target,
target within the local log) it answers with the commits from the
requester's count up to the target — capped at **101** commits at a time
when `sendAll` is unset, all remaining ones when it is set — as embedded
COMMIT sub-messages carrying `CommitIndex`, `Hash` and the query as
content. -/
theorem syncResponder_rejects_and_batches (params : SyncParams) (target : Nat)
    (db : Db) (sendAll : Bool) (htarget : target ≤ db.commitCount) :
    (db.commitCount < params.commitCount.getD 0 →
      queueSynchronizeStateless params target db sendAll =
        .error "you have more data than me") ∧
    (∀ row, params.commitCount.getD 0 ≤ db.commitCount →
      db.getCommit (params.commitCount.getD 0) = some row →
      row.1 ≠ params.hash.getD "" →
      queueSynchronizeStateless params target db sendAll = .error "hash mismatch") ∧
    (∀ r, queueSynchronizeStateless params target db sendAll = .ok r →
      r.numCommits = r.commits.length ∧
      (sendAll = true → r.commits.length = target - params.commitCount.getD 0) ∧
      (sendAll = false → r.commits.length = min (target - params.commitCount.getD 0) 101) ∧
      (∀ i, i < r.commits.length →
        ∃ row, db.getCommit (params.commitCount.getD 0 + i + 1) = some row ∧
          r.commits[i]? = some ⟨params.commitCount.getD 0 + i + 1, row.1, row.2⟩)) ∧
    (sendAll = false → ∀ r, queueSynchronizeStateless params target db sendAll = .ok r →
      r.commits.length ≤ 101) := by
  have hsend : ∀ pcc r, queueSynchronizeSend pcc target db sendAll = .ok r →
      r.numCommits = r.commits.length ∧
      (sendAll = true → r.commits.length = target - pcc) ∧
      (sendAll = false → r.commits.length = min (target - pcc) 101) ∧
      (∀ i, i < r.commits.length →
        ∃ row, db.getCommit (pcc + i + 1) = some row ∧
          r.commits[i]? = some ⟨pcc + i + 1, row.1, row.2⟩) := by
    intro pcc r hok
    unfold queueSynchronizeSend at hok
    by_cases heqt : pcc = target
    · rw [if_pos heqt] at hok
      cases hok
      refine ⟨rfl, ?_, ?_, by intro i hi; simp at hi⟩
      · intro _
        simp [heqt]
      · intro _
        simp [heqt]
    · rw [if_neg heqt] at hok
      dsimp only at hok
      set toIndex := if sendAll then target else min target (pcc + 1 + 100) with htI
      have htle : toIndex ≤ db.commitCount := by
        cases hsa : sendAll
        · rw [htI, if_neg (by rw [hsa]; exact Bool.false_ne_true)]
          omega
        · rw [htI, if_pos (by rw [hsa])]
          omega
      have hlen : (db.getCommits (pcc + 1) toIndex).length = toIndex + 1 - (pcc + 1) :=
        getCommits_length db (pcc + 1) toIndex (by omega) htle
      by_cases hsz : ((db.getCommits (pcc + 1) toIndex).length : Int) ≠
          (toIndex : Int) - ((pcc + 1 : Nat) : Int) + 1
      · rw [if_pos hsz] at hok
        cases hok
      · rw [if_neg hsz] at hok
        cases hok
        have hne2 : toIndex ≠ pcc := by
          cases hsa : sendAll
          · rw [htI, if_neg (by rw [hsa]; exact Bool.false_ne_true)]
            omega
          · rw [htI, if_pos (by rw [hsa])]
            omega
        have hpt : pcc < toIndex := by
          rw [hlen] at hsz
          by_cases hc : pcc < toIndex
          · exact hc
          · exfalso
            apply hsz
            omega
        refine ⟨by simp, ?_, ?_, ?_⟩
        · intro hsa
          simp only [List.length_map, List.length_range]
          rw [hlen]
          rw [htI, if_pos (by rw [hsa])] at hpt ⊢
          omega
        · intro hsa
          simp only [List.length_map, List.length_range]
          rw [hlen]
          rw [htI, if_neg (by rw [hsa]; exact Bool.false_ne_true)] at hpt ⊢
          omega
        · intro i hi
          simp only [List.length_map, List.length_range] at hi
          have hi' : i < (db.getCommits (pcc + 1) toIndex).length := hi
          obtain ⟨row, hrow⟩ : ∃ row, (db.getCommits (pcc + 1) toIndex)[i]? = some row :=
            ⟨(db.getCommits (pcc + 1) toIndex)[i], List.getElem?_eq_getElem hi'⟩
          have hcommits : db.commits[pcc + i]? = some row := by
            rw [← hrow, getCommits_getElem db (pcc + 1) toIndex i (by omega) hi']
            norm_num
          refine ⟨row, ?_, ?_⟩
          · unfold Db.getCommit
            rw [if_neg (by omega)]
            simpa using hcommits
          · rw [List.getElem?_map, List.getElem?_range hi]
            simp [hrow]
  have hmain : ∀ r, queueSynchronizeStateless params target db sendAll = .ok r →
      r.numCommits = r.commits.length ∧
      (sendAll = true → r.commits.length = target - params.commitCount.getD 0) ∧
      (sendAll = false → r.commits.length = min (target - params.commitCount.getD 0) 101) ∧
      (∀ i, i < r.commits.length →
        ∃ row, db.getCommit (params.commitCount.getD 0 + i + 1) = some row ∧
          r.commits[i]? = some ⟨params.commitCount.getD 0 + i + 1, row.1, row.2⟩) := by
    intro r hok
    unfold queueSynchronizeStateless at hok
    by_cases h1 : params.commitCount.getD 0 > db.commitCount
    · rw [if_pos h1] at hok
      cases hok
    · rw [if_neg h1] at hok
      by_cases h2 : params.commitCount.getD 0 ≠ 0
      · rw [if_pos h2] at hok
        split at hok
        · cases hok
        · split at hok
          · cases hok
          · exact hsend _ r hok
      · rw [if_neg h2] at hok
        exact hsend _ r hok
  refine ⟨?_, ?_, hmain, ?_⟩
  · intro hmore
    unfold queueSynchronizeStateless
    rw [if_pos hmore]
  · intro row hle hrow hne
    unfold queueSynchronizeStateless
    rw [if_neg (by omega)]
    have hpcc0 : params.commitCount.getD 0 ≠ 0 := by
      intro h0
      rw [h0] at hrow
      simp [Db.getCommit] at hrow
    rw [if_pos hpcc0, hrow]
    simp [hne]
  · intro hsa r hok
    rw [(hmain r hok).2.2.1 hsa]
    exact min_le_right _ _

/-- Witness for C4 (amended): a requester at commit 0 against a responder
with 102 commits and target 102 receives exactly `min 102 101 = 101`
commits; a requester claiming more data than the responder holds is
rejected; a forked requester gets "hash mismatch". -/
theorem syncResponder_rejects_and_batches_witness :
    (queueSynchronizeStateless ⟨none, none⟩ 102
        ⟨List.replicate 102 ("h", "q"), "", ""⟩ false).map (fun r => r.commits.length) =
      .ok (min (102 - 0) 101) ∧
    queueSynchronizeStateless ⟨some 3, none⟩ 1 ⟨[("h", "q")], "", ""⟩ false =
      .error "you have more data than me" ∧
    queueSynchronizeStateless ⟨some 1, some "other"⟩ 1 ⟨[("h", "q")], "", ""⟩ false =
      .error "hash mismatch" := by
  refine ⟨?_, ?_, ?_⟩
  · obtain ⟨r, hr⟩ : ∃ r, queueSynchronizeStateless ⟨none, none⟩ 102
        ⟨List.replicate 102 ("h", "q"), "", ""⟩ false = .ok r := ⟨_, rfl⟩
    rw [hr]
    have := ((syncResponder_rejects_and_batches ⟨none, none⟩ 102
        ⟨List.replicate 102 ("h", "q"), "", ""⟩ false (by simp [Db.commitCount])).2.2.1
      r hr).2.2.1 rfl
    simp only [Except.map]
    rw [this]
    rfl
  · exact (syncResponder_rejects_and_batches ⟨some 3, none⟩ 1 _ false
      (by simp [Db.commitCount])).1 (by simp [Db.commitCount])
  · exact (syncResponder_rejects_and_batches ⟨some 1, some "other"⟩ 1 _ false
      (by simp [Db.commitCount])).2.1 ("h", "q") (by simp [Db.commitCount]) (by decide)
      (by decide)

/-- Counterexample to C4 as stated: with 102 local commits, a fresh
requester (commit count 0) and target 102, a single response carries 101
embedded COMMITs — more than the stated "up to 100". -/
theorem syncResponder_sends_101_commits :
    (queueSynchronizeStateless ⟨none, none⟩ 102
        ⟨List.replicate 102 ("h", "q"), "", ""⟩ false).map (fun r => r.commits.length) =
      .ok 101 ∧ ¬ (101 ≤ 100) := by
  constructor
  · rfl
  · decide

end Bedrock
